import Mathlib

/- Verification development for the synthetic phone-usage data generators:
   a shallow embedding of `generate_phone_usage_data.py`,
   `generate_realistic_data.py` and `function.py`.  Every random draw the
   Python code makes (`np.random.normal`, `np.random.uniform`,
   `random.randint`, `random.choice`, ...) is passed in explicitly, so each
   generator becomes a pure function of its configuration and its draws. -/

/-- Round-half-even of a value to an integer, the rounding used by Python's
built-in `round`. -/
def rhe {α : Type} [LinearOrderedField α] [FloorRing α]
    [DecidableRel ((· < ·) : α → α → Prop)] (x : α) : ℤ :=
  if Int.fract x < 1 / 2 then Int.floor x
  else if 1 / 2 < Int.fract x then Int.floor x + 1
  else if Int.floor x % 2 = 0 then Int.floor x else Int.floor x + 1

/-- Python's `round(value, 2)`: round-half-even at two decimal places. -/
def round2 {α : Type} [LinearOrderedField α] [FloorRing α]
    [DecidableRel ((· < ·) : α → α → Prop)] (x : α) : α :=
  ((rhe (100 * x) : ℤ) : α) / 100

/-- Python's `int(...)` applied to a real value: truncation toward zero. -/
def pyTrunc {α : Type} [LinearOrderedField α] [FloorRing α]
    [DecidableRel ((· ≤ ·) : α → α → Prop)] (x : α) : ℤ :=
  if 0 ≤ x then Int.floor x else Int.ceil x

/-- Whether `pat` occurs as a contiguous substring of `s`, as Python's
`pat in s` on strings. -/
def containsSub (pat s : String) : Bool :=
  (s.toList.tails).any (fun t => pat.toList.isPrefixOf t)

/-- The metric classification of `generate_user_usage`:
`if 'FLOAT' in metric or 'MINS' in metric or 'MIN' in metric`. -/
def floatTyped (metric : String) : Bool :=
  containsSub "FLOAT" metric || containsSub "MINS" metric || containsSub "MIN" metric

/-- `generate_seasonality(month_index)` from `generate_phone_usage_data.py`
with its default amplitude 0.15:
`amplitude * np.sin(2 * np.pi * month_index / 12 + np.pi / 2)`. -/
noncomputable def generate_seasonality (monthIndex : ℕ) : ℝ :=
  0.15 * Real.sin (2 * Real.pi * (monthIndex : ℝ) / 12 + Real.pi / 2)

/-- The per-index growth factor of `generate_growth_phase`: a sigmoid
`1 / (1 + exp(-1.5 * (i - growth_months / 2)))` during the ramp,
1.0 afterwards. -/
noncomputable def growthAt (growthMonths i : ℕ) : ℝ :=
  if i < growthMonths then
    1 / (1 + Real.exp (-(1.5) * ((i : ℝ) - (growthMonths : ℝ) / 2)))
  else 1

/-- `generate_growth_phase(months, growth_months)`: the list of growth factors
for month indices `0 .. months-1`. -/
noncomputable def generate_growth_phase (months growthMonths : ℕ) : List ℝ :=
  (List.range months).map (growthAt growthMonths)

/-- The per-index trend factor of `generate_trend`: 0 before `start_month`,
then a 24-month cycle rising linearly for the first 60% of the cycle to a
0.20 peak and decaying linearly by 0.10 over the remaining 40%. -/
noncomputable def trendAt (startMonth i : ℕ) : ℝ :=
  if i < startMonth then 0
  else
    let position : ℕ := (i - startMonth) % 24
    if (position : ℝ) < 24 * 0.6 then 0.20 * ((position : ℝ) / (24 * 0.6))
    else 0.20 - 0.10 * (((position : ℝ) - 24 * 0.6) / (24 * 0.4))

/-- `generate_trend(months, start_month)`: the list of trend factors for month
indices `0 .. months-1`. -/
noncomputable def generate_trend (months startMonth : ℕ) : List ℝ :=
  (List.range months).map (trendAt startMonth)

/-- The per-index decline factor of `generate_churn_decline`.  The whole
decline logic is guarded by `if churn_month > decline_months`; inside the
window the factor is `0.3 + 0.7 * (months_before_churn / decline_months)`,
and indices at or after the churn month receive the fresh uniform draws
`post i` standing for `np.random.uniform(0, 0.05, ...)`. -/
noncomputable def churnDeclineAt (churnMonth declineMonths : ℕ) (post : ℕ → ℝ)
    (i : ℕ) : ℝ :=
  if declineMonths < churnMonth then
    if churnMonth ≤ i then post i
    else if churnMonth - declineMonths ≤ i then
      0.3 + 0.7 * (((churnMonth - i : ℕ) : ℝ) / (declineMonths : ℝ))
    else 1
  else 1

/-- `generate_churn_decline(months, churn_month, decline_months)`: the decline
pattern array for month indices `0 .. months-1`. -/
noncomputable def generate_churn_decline (months churnMonth declineMonths : ℕ)
    (post : ℕ → ℝ) : List ℝ :=
  (List.range months).map (churnDeclineAt churnMonth declineMonths post)

/-- `generate_user_usage(user_id, num_months, base_values, is_churned,
churn_month)` from `generate_phone_usage_data.py`, restricted to the numeric
metric dictionary of each month (the `USERID` and `MONTH` columns carry no
metric).  `noise` is the per-month `np.random.normal(1.0, 0.05)` draw,
`jitter monthIdx j` the per-metric `np.random.uniform(0.9, 1.1)` draw for the
`j`-th metric of the profile, and `post` the post-churn residual draws of the
decline pattern.  The Python guard `if is_churned and churn_month:` treats
both `None` and `0` as falsy. -/
noncomputable def generate_user_usage (numMonths : ℕ)
    (baseValues : List (String × ℝ)) (isChurned : Bool) (churnMonth : Option ℕ)
    (noise : ℕ → ℝ) (jitter : ℕ → ℕ → ℝ) (post : ℕ → ℝ) :
    List (List (String × ℝ)) :=
  let growth := generate_growth_phase numMonths 6
  let trend := generate_trend numMonths 6
  let churnDecline : List ℝ :=
    match isChurned, churnMonth with
    | true, some c =>
        if c = 0 then List.replicate numMonths 1
        else generate_churn_decline numMonths c 6 post
    | _, _ => List.replicate numMonths 1
  (List.range numMonths).map (fun monthIdx =>
    let seasonality := generate_seasonality (monthIdx % 12)
    let multiplier := growth.getD monthIdx 0 * (1 + trend.getD monthIdx 0) *
      (1 + seasonality) * churnDecline.getD monthIdx 0 * noise monthIdx
    baseValues.enum.map (fun p =>
      let value := p.2.2 * multiplier * jitter monthIdx p.1
      if floatTyped p.2.1 then (p.2.1, round2 value)
      else (p.2.1, ((max 0 (pyTrunc value) : ℤ) : ℝ))))

/-- The per-account trend regime drawn by `generate_usage_pattern` via
`random.choice(['growth', 'stable', 'decline'])`. -/
inductive TrendType where
  | growth
  | stable
  | declining
  deriving DecidableEq, Inhabited

/-- The per-month random draws consumed by one iteration of
`generate_usage_pattern`, in source order: the stable-trend variation
`uniform(-0.05, 0.05)`, the calls and minutes jitters `uniform(0.8, 1.2)`,
`voice_ratio ~ uniform(0.80, 0.95)`, `inbound_ratio ~ uniform(0.45, 0.55)`,
the MAU jitter `uniform(0.7, 1.0)`, and the hardphone/softphone shares
`uniform(0.3, 0.5)`. -/
structure MonthDraws where
  stableVar : ℚ
  callsJit : ℚ
  minsJit : ℚ
  voiceRatio : ℚ
  inboundRatio : ℚ
  mauJit : ℚ
  hardRatio : ℚ
  softRatio : ℚ
  deriving DecidableEq, Inhabited

/-- One monthly usage record of `generate_usage_pattern`
(`generate_realistic_data.py`), with every metric as a rational. -/
structure UsageRow where
  phoneTotalCalls : ℚ
  phoneTotalMinutesOfUse : ℚ
  voiceCalls : ℚ
  voiceMins : ℚ
  faxCalls : ℚ
  faxMins : ℚ
  inboundCalls : ℚ
  outboundCalls : ℚ
  inboundMin : ℚ
  outboundMin : ℚ
  outVoiceCalls : ℚ
  inVoiceCalls : ℚ
  outVoiceMins : ℚ
  inVoiceMins : ℚ
  outFaxCalls : ℚ
  inFaxCalls : ℚ
  outFaxMins : ℚ
  inFaxMins : ℚ
  phoneMau : ℚ
  callMau : ℚ
  faxMau : ℚ
  hardphoneCalls : ℚ
  softphoneCalls : ℚ
  mobileCalls : ℚ
  mobileAndroidCalls : ℚ
  deriving DecidableEq, Inhabited

/-- Months are encoded as integers `12 * year + (month - 1)`, so that the
source's `(a.year - b.year) * 12 + (a.month - b.month)` is plain subtraction
and `relativedelta(months=k)` is addition of `k`. -/
def END_IDX : ℤ := 2025 * 12 + 11

/-- The body of the month loop of `generate_usage_pattern`: the usage row for
`month_idx`, given the account-level draws (`num_users`,
`base_calls_per_user`, `base_minutes_per_user`, the trend regime) and the
per-month draws `dr`. -/
def usagePatternRow (numUsers : ℕ) (churnMonth : Option ℤ) (onboardMonth : ℤ)
    (baseCalls baseMins : ℤ) (tt : TrendType) (dr : ℕ → MonthDraws)
    (monthIdx : ℕ) : UsageRow :=
  let currentMonth : ℤ := onboardMonth + (monthIdx : ℤ)
  let monthsToChurn : Option ℤ := churnMonth.map (fun c => c - currentMonth)
  let monthNum : ℤ := currentMonth % 12 + 1
  let seasonalFactor : ℚ :=
    if monthNum = 11 ∨ monthNum = 12 ∨ monthNum = 1 ∨ monthNum = 2 then 1.15
    else if monthNum = 6 ∨ monthNum = 7 ∨ monthNum = 8 then 0.90
    else 1.0
  let trendFactor : ℚ :=
    match tt with
    | .growth => 1 + (monthIdx : ℚ) * 0.02
    | .declining => 1 - (monthIdx : ℚ) * 0.01
    | .stable => 1 + (dr monthIdx).stableVar
  let declineFactor : ℚ :=
    match monthsToChurn with
    | some mtc =>
        if mtc ≤ 3 then 0.5 - ((3 : ℚ) - (mtc : ℚ)) * 0.15
        else if mtc ≤ 6 then 0.85 - ((6 : ℚ) - (mtc : ℚ)) * 0.05
        else 1.0
    | none => 1.0
  let totalFactor : ℚ := seasonalFactor * trendFactor * declineFactor
  let totalCalls : ℤ :=
    max 0 (pyTrunc ((numUsers : ℚ) * (baseCalls : ℚ) * totalFactor * (dr monthIdx).callsJit))
  let totalMinutes : ℤ :=
    max 0 (pyTrunc ((numUsers : ℚ) * (baseMins : ℚ) * totalFactor * (dr monthIdx).minsJit))
  let voiceRatio : ℚ := (dr monthIdx).voiceRatio
  let voiceCalls : ℤ := pyTrunc ((totalCalls : ℚ) * voiceRatio)
  let voiceMins : ℚ := (totalMinutes : ℚ) * voiceRatio
  let faxCalls : ℤ := totalCalls - voiceCalls
  let faxMins : ℚ := (totalMinutes : ℚ) - voiceMins
  let inboundRatio : ℚ := (dr monthIdx).inboundRatio
  let inboundCalls : ℤ := pyTrunc ((totalCalls : ℚ) * inboundRatio)
  let outboundCalls : ℤ := totalCalls - inboundCalls
  let inboundMins : ℚ := (totalMinutes : ℚ) * inboundRatio
  let outboundMins : ℚ := (totalMinutes : ℚ) - inboundMins
  let mau : ℤ :=
    min (numUsers : ℤ) (max 1 (pyTrunc ((numUsers : ℚ) * totalFactor * (dr monthIdx).mauJit)))
  let callMau : ℤ := mau
  let faxMau : ℤ := max 1 (pyTrunc ((mau : ℚ) * 0.3))
  let hardphoneCalls : ℤ := pyTrunc ((totalCalls : ℚ) * (dr monthIdx).hardRatio)
  let softphoneCalls : ℤ := pyTrunc ((totalCalls : ℚ) * (dr monthIdx).softRatio)
  let mobileCalls : ℤ := totalCalls - hardphoneCalls - softphoneCalls
  let mobileAndroid : ℤ := pyTrunc ((mobileCalls : ℚ) * 0.6)
  { phoneTotalCalls := (totalCalls : ℚ)
    phoneTotalMinutesOfUse := round2 ((totalMinutes : ℤ) : ℚ)
    voiceCalls := (voiceCalls : ℚ)
    voiceMins := round2 voiceMins
    faxCalls := (faxCalls : ℚ)
    faxMins := round2 faxMins
    inboundCalls := (inboundCalls : ℚ)
    outboundCalls := (outboundCalls : ℚ)
    inboundMin := round2 inboundMins
    outboundMin := round2 outboundMins
    outVoiceCalls := (pyTrunc ((voiceCalls : ℚ) * (1 - inboundRatio)) : ℚ)
    inVoiceCalls := (pyTrunc ((voiceCalls : ℚ) * inboundRatio) : ℚ)
    outVoiceMins := round2 (voiceMins * (1 - inboundRatio))
    inVoiceMins := round2 (voiceMins * inboundRatio)
    outFaxCalls := (pyTrunc ((faxCalls : ℚ) * (1 - inboundRatio)) : ℚ)
    inFaxCalls := (pyTrunc ((faxCalls : ℚ) * inboundRatio) : ℚ)
    outFaxMins := round2 (faxMins * (1 - inboundRatio))
    inFaxMins := round2 (faxMins * inboundRatio)
    phoneMau := (mau : ℚ)
    callMau := (callMau : ℚ)
    faxMau := (faxMau : ℚ)
    hardphoneCalls := (hardphoneCalls : ℚ)
    softphoneCalls := (softphoneCalls : ℚ)
    mobileCalls := (mobileCalls : ℚ)
    mobileAndroidCalls := (mobileAndroid : ℚ) }

/-- `generate_usage_pattern(num_users, months_data, churn_month,
onboard_month)` from `generate_realistic_data.py`: one usage row per month
index `0 .. months_data-1`. -/
def generate_usage_pattern (numUsers : ℕ) (monthsData : ℕ)
    (churnMonth : Option ℤ) (onboardMonth : ℤ) (baseCalls baseMins : ℤ)
    (tt : TrendType) (dr : ℕ → MonthDraws) : List UsageRow :=
  (List.range monthsData).map
    (usagePatternRow numUsers churnMonth onboardMonth baseCalls baseMins tt dr)

/-- One synthetic account of `generate_realistic_data.py`
(`generate_accounts`), after all its account-level draws are made. -/
structure RAccount where
  accountId : ℕ
  numUsers : ℕ
  onboard : ℤ
  churn : Option ℤ
  company : String
  brand : String
  package : String
  tier : String
  edition : String
  deriving DecidableEq, Inhabited

/-- The number of usage months computed by `generate_usage_data`: up to the
churn month (exclusive) for churned accounts, up to `END_DATE` (inclusive)
otherwise. -/
def monthsOfData (a : RAccount) : ℕ :=
  match a.churn with
  | some c => (c - a.onboard).toNat
  | none => (END_IDX - a.onboard + 1).toNat

/-- The usage records `generate_usage_data` emits for one account:
`(USERID, MONTH, metrics)` with `MONTH = onboard_month + month_idx`. -/
def generate_usage_records (a : RAccount) (baseCalls baseMins : ℤ)
    (tt : TrendType) (dr : ℕ → MonthDraws) : List (ℕ × ℤ × UsageRow) :=
  ((generate_usage_pattern a.numUsers (monthsOfData a) a.churn a.onboard
      baseCalls baseMins tt dr).enum).map
    (fun p => (a.accountId, a.onboard + (p.1 : ℤ), p.2))

/-- One row of the monthly account-attributes table (the record dictionary
built by `generate_account_data` in `function.py` and by
`generate_account_attributes` in `generate_realistic_data.py`). -/
structure AccountRecord where
  month : ℤ
  enterpriseAccountId : ℕ
  company : String
  eaBrandId : ℤ
  eaBrandName : String
  eaUbrandId : String
  eaUbrandDescription : String
  eaAcctStatus : String
  serviceAccountId : ℕ
  saBrandId : ℤ
  saBrandName : String
  saUbrandId : String
  saUbrandDescription : String
  saAcctStatus : String
  packageId : ℤ
  packageName : String
  catalogPackageId : String
  catalogPackageName : String
  isTester : Bool
  tierId : ℤ
  tierName : String
  editionName : String
  externalAccountId : String
  ban : String
  opcoId : String
  deriving DecidableEq, Inhabited

/-- Zero-pads the decimal form of `n` to eight characters, as the Python
format `f'EXT-{ea_id:08d}'` does inside `generate_account_data`. -/
def pad8 (n : ℕ) : String :=
  let s := toString n
  String.mk (List.replicate (8 - s.length) (Char.ofNat 48)) ++ s

/-- The per-account draws of `generate_account_data` (`function.py`), in
source order: the number of months `randint(5, 20)`, the fixed descriptive
attributes chosen with `random.choice`/`random.randint`, and the churn plan
(`will_become_inactive`, the index `randint(1, len(months) - 1)` and the
terminal status `random.choice(['Suspended', 'Closed'])`). -/
structure AccountDraws where
  numMonths : ℕ
  company : String
  eaBrandId : ℤ
  eaBrandName : String
  eaUbrandId : String
  eaUbrandDescription : String
  serviceAccountId : ℕ
  saBrandId : ℤ
  saBrandName : String
  saUbrandId : String
  saUbrandDescription : String
  packageId : ℤ
  packageName : String
  catalogPackageId : String
  catalogPackageName : String
  tierId : ℤ
  tierName : String
  editionName : String
  isTester : Bool
  ban : String
  opco : String
  willInactive : Bool
  inactiveIdx : ℕ
  nonActiveStatus : String
  deriving DecidableEq, Inhabited

/-- `generate_month_sequence(num_months)` from `function.py`: the months
`MOST_RECENT_MONTH - i` for `i = 0 .. num_months - 1`, sorted chronologically
(Python's `sorted`, here `mergeSort` by `≤`). -/
def generate_month_sequence (mostRecent : ℤ) (numMonths : ℕ) : List ℤ :=
  ((List.range numMonths).map (fun i => mostRecent - (i : ℤ))).mergeSort
    (fun a b => decide (a ≤ b))

/-- The account-attribute record `generate_account_data` appends for one
month: every descriptive field comes from the account's fixed draws,
`EA_ACCT_STATUS` is the constant `'Active'`, and `SA_ACCT_STATUS` is the
only month-dependent field. -/
def mkAccountRecord (eaId : ℕ) (d : AccountDraws) (month : ℤ)
    (saStatus : String) : AccountRecord :=
  { month := month
    enterpriseAccountId := eaId
    company := d.company
    eaBrandId := d.eaBrandId
    eaBrandName := d.eaBrandName
    eaUbrandId := d.eaUbrandId
    eaUbrandDescription := d.eaUbrandDescription
    eaAcctStatus := "Active"
    serviceAccountId := d.serviceAccountId
    saBrandId := d.saBrandId
    saBrandName := d.saBrandName
    saUbrandId := d.saUbrandId
    saUbrandDescription := d.saUbrandDescription
    saAcctStatus := saStatus
    packageId := d.packageId
    packageName := d.packageName
    catalogPackageId := d.catalogPackageId
    catalogPackageName := d.catalogPackageName
    isTester := d.isTester
    tierId := d.tierId
    tierName := d.tierName
    editionName := d.editionName
    externalAccountId := "EXT-" ++ pad8 eaId
    ban := d.ban
    opcoId := d.opco }

/-- The records `generate_account_data` emits for one enterprise account:
`'Active'` rows for the months before `inactive_from_month` (the loop breaks
at the first month `≥ inactive_from_month`), then, for an account flagged
inactive, one final record at `inactive_from_month` carrying the drawn
non-active status. -/
def genAccountRecords (eaId : ℕ) (d : AccountDraws) (months : List ℤ) :
    List AccountRecord :=
  let inactiveMonth : Option ℤ :=
    if d.willInactive then months[d.inactiveIdx]? else none
  let keep : ℤ → Bool := fun m =>
    match inactiveMonth with
    | some im => decide (m < im)
    | none => true
  let activeRecs :=
    (months.takeWhile keep).map (fun m => mkAccountRecord eaId d m "Active")
  match inactiveMonth with
  | some im => activeRecs ++ [mkAccountRecord eaId d im d.nonActiveStatus]
  | none => activeRecs

/-- The module-level configuration `generate_account_data` reads through
`globals()`: the account count and the required choice lists. -/
structure GenConfig where
  numAccounts : ℤ
  companies : List String
  brands : List (ℤ × String)
  ubrands : List (String × String)
  packages : List (ℤ × String × String × String)
  tiers : List (ℤ × String × String)
  opcos : List String
  deriving Inhabited

/-- The error message `generate_account_data` raises when a required
configuration list is empty. -/
def configErrorMsg : String :=
  "Configuration constants (COMPANIES, BRANDS, UBRANDS, PACKAGES, TIERS, OPCOS) must be set before calling this function"

/-- `generate_account_data(non_active_ratio)` from `function.py`: raises
`ValueError` when a configuration list is empty (Python's
`if not all([...])`), otherwise concatenates the records of enterprise
accounts `1 .. NUM_ENTERPRISE_ACCOUNTS`.  A non-positive account count makes
`range(1, N + 1)` empty. -/
def generate_account_data (cfg : GenConfig) (mostRecent : ℤ)
    (draws : ℕ → AccountDraws) : Except String (List AccountRecord) :=
  if cfg.companies = [] ∨ cfg.brands = [] ∨ cfg.ubrands = [] ∨
      cfg.packages = [] ∨ cfg.tiers = [] ∨ cfg.opcos = [] then
    Except.error configErrorMsg
  else
    Except.ok ((List.range cfg.numAccounts.toNat).flatMap (fun k =>
      let eaId := k + 1
      let d := draws eaId
      genAccountRecords eaId d (generate_month_sequence mostRecent d.numMonths)))

/-- The statuses `generate_churn_records` (`function.py`) treats as churn. -/
def churn_statuses : List String := ["Suspended", "Closed"]

/-- The churn date `generate_churn_records` (`function.py`) derives for one
service account: the minimum `MONTH` over that account's records whose
`SA_ACCT_STATUS` is `'Suspended'` or `'Closed'`, if any. -/
def churnDateFor (recs : List AccountRecord) (sid : ℕ) : Option ℤ :=
  (((recs.filter (fun r => decide (r.saAcctStatus ∈ churn_statuses))).filter
      (fun r => decide (r.serviceAccountId = sid))).map
    (fun r => r.month)).min?

/-- `generate_account_attributes` from `generate_realistic_data.py` for one
account: one record per month from onboarding to the churn month (or
`END_DATE`) inclusive; the status (written to both `EA_ACCT_STATUS` and
`SA_ACCT_STATUS`) is `'Churned'` from the churn month on.  `opcoDraw i` is
the per-month `random.randint(1, 5)` and `hashF` stands for Python's
`hash` on strings. -/
def generate_account_attributes (a : RAccount) (opcoDraw : ℕ → ℕ)
    (hashF : String → ℤ) : List AccountRecord :=
  let endMonth : ℤ := match a.churn with | some c => c | none => END_IDX
  let n : ℕ := (endMonth - a.onboard + 1).toNat
  (List.range n).map (fun i =>
    let m := a.onboard + ((i : ℕ) : ℤ)
    let status : String :=
      match a.churn with
      | some c => if c ≤ m then "Churned" else "Active"
      | none => "Active"
    { month := m
      enterpriseAccountId := a.accountId
      company := a.company
      eaBrandId := hashF a.brand % 1000
      eaBrandName := a.brand
      eaUbrandId := "UB" ++ toString (hashF a.brand % 100)
      eaUbrandDescription := a.brand
      eaAcctStatus := status
      serviceAccountId := a.accountId
      saBrandId := hashF a.brand % 1000
      saBrandName := a.brand
      saUbrandId := "UB" ++ toString (hashF a.brand % 100)
      saUbrandDescription := a.brand
      saAcctStatus := status
      packageId := hashF a.package % 100
      packageName := a.package
      catalogPackageId := "CP" ++ toString (hashF a.package % 1000)
      catalogPackageName := a.package
      isTester := false
      tierId := hashF a.tier % 10
      tierName := a.tier
      editionName := a.edition
      externalAccountId := "EA" ++ toString a.accountId
      ban := "BAN" ++ toString a.accountId
      opcoId := "OP" ++ toString (opcoDraw i) })

/-- The composition rule of the spec for the synthesizer's month multiplier:
`growth(i) * (1 + trend(i)) * (1 + seasonal(i mod 12)) * churn_decline(i) *
noise`, with the factor functions taken from the source and the decline
active exactly when the account is churned with a truthy churn month. -/
noncomputable def spec_final_multiplier (isChurned : Bool)
    (churnMonth : Option ℕ) (noise post : ℕ → ℝ) (i : ℕ) : ℝ :=
  growthAt 6 i * (1 + trendAt 6 i) * (1 + generate_seasonality (i % 12)) *
    (match isChurned, churnMonth with
     | true, some c => if c = 0 then 1 else churnDeclineAt c 6 post i
     | _, _ => 1) * noise i

lemma aux_getD_map_range {α : Type} (f : ℕ → α) {n i : ℕ} (hi : i < n)
    (d : α) : ((List.range n).map f).getD i d = f i := by
  rw [List.getD_eq_getElem?_getD, List.getElem?_map, List.getElem?_range hi]
  rfl

lemma aux_getD_replicate {α : Type} {n i : ℕ} (hi : i < n) (a d : α) :
    (List.replicate n a).getD i d = a := by
  rw [List.getD_eq_getElem?_getD, List.getElem?_replicate, if_pos hi]
  rfl

lemma aux_rhe_intCast {α : Type} [LinearOrderedField α] [FloorRing α]
    [DecidableRel ((· < ·) : α → α → Prop)] (z : ℤ) : rhe ((z : α)) = z := by
  unfold rhe
  rw [Int.fract_intCast, Int.floor_intCast, if_pos one_half_pos]

lemma aux_rhe_nonneg {α : Type} [LinearOrderedField α] [FloorRing α]
    [DecidableRel ((· < ·) : α → α → Prop)] {x : α} (hx : 0 ≤ x) :
    0 ≤ rhe x := by
  have hf : 0 ≤ Int.floor x := Int.floor_nonneg.mpr hx
  unfold rhe
  split_ifs <;> omega

lemma aux_round2_nonneg {α : Type} [LinearOrderedField α] [FloorRing α]
    [DecidableRel ((· < ·) : α → α → Prop)] {x : α} (hx : 0 ≤ x) :
    0 ≤ round2 x := by
  unfold round2
  have h : (0 : ℤ) ≤ rhe (100 * x) := aux_rhe_nonneg (by positivity)
  have h2 : (0 : α) ≤ ((rhe (100 * x) : ℤ) : α) := by exact_mod_cast h
  positivity

lemma aux_round2_intCast {α : Type} [LinearOrderedField α] [FloorRing α]
    [DecidableRel ((· < ·) : α → α → Prop)] (z : ℤ) :
    round2 ((z : α)) = (z : α) := by
  unfold round2
  have h : (100 : α) * (z : α) = ((100 * z : ℤ) : α) := by push_cast; ring
  rw [h, aux_rhe_intCast]
  push_cast
  ring

lemma aux_rhe_pair {α : Type} [LinearOrderedField α] [FloorRing α]
    [DecidableRel ((· < ·) : α → α → Prop)] (n : ℤ) (hn : n % 2 = 0) (x : α) :
    rhe x + rhe ((n : α) - x) = n := by
  by_cases h0 : Int.fract x = 0
  · have hx : x = ((Int.floor x : ℤ) : α) := by
      have h := Int.floor_add_fract x
      rw [h0, add_zero] at h
      exact h.symm
    rw [hx]
    have h2 : ((n : α)) - ((Int.floor x : ℤ) : α) = ((n - Int.floor x : ℤ) : α) := by
      push_cast
      ring
    rw [h2, aux_rhe_intCast, aux_rhe_intCast]
    omega
  · have hfr0 : 0 < Int.fract x :=
      lt_of_le_of_ne (Int.fract_nonneg x) (Ne.symm h0)
    have hfr1 : Int.fract x < 1 := Int.fract_lt_one x
    have hxf : ((Int.floor x : ℤ) : α) + Int.fract x = x := Int.floor_add_fract x
    have hfloor2 : Int.floor ((n : α) - x) = n - Int.floor x - 1 := by
      rw [Int.floor_eq_iff]
      constructor
      · push_cast
        linarith
      · push_cast
        linarith
    have hfr2 : Int.fract ((n : α) - x) = 1 - Int.fract x := by
      have h := (Int.self_sub_floor ((n : α) - x)).symm
      rw [h, hfloor2]
      push_cast
      linarith
    unfold rhe
    rw [hfr2, hfloor2]
    rcases lt_trichotomy (Int.fract x) (1 / 2 : α) with hlt | heq | hgt
    · have hc1 : ¬(1 - Int.fract x < 1 / 2) := by linarith
      have hc2 : (1 / 2 : α) < 1 - Int.fract x := by linarith
      rw [if_pos hlt, if_neg hc1, if_pos hc2]
      omega
    · have ha : ¬(Int.fract x < 1 / 2) := by rw [heq]; norm_num
      have hb : ¬((1 / 2 : α) < Int.fract x) := by rw [heq]; norm_num
      have hc : ¬(1 - Int.fract x < 1 / 2) := by rw [heq]; norm_num
      have hd : ¬((1 / 2 : α) < 1 - Int.fract x) := by rw [heq]; norm_num
      rw [if_neg ha, if_neg hb, if_neg hc, if_neg hd]
      split_ifs <;> omega
    · have ha : ¬(Int.fract x < 1 / 2) := by linarith
      have hc : 1 - Int.fract x < 1 / 2 := by linarith
      rw [if_neg ha, if_pos hgt, if_pos hc]
      omega

lemma aux_growthAt_pos (G i : ℕ) : 0 < growthAt G i := by
  unfold growthAt
  split_ifs
  · positivity
  · norm_num

lemma aux_growthAt_le_one (G i : ℕ) : growthAt G i ≤ 1 := by
  unfold growthAt
  split_ifs
  · rw [div_le_one (by positivity)]
    have h := Real.exp_pos (-(1.5) * ((i : ℝ) - (G : ℝ) / 2))
    linarith
  · exact le_rfl

lemma aux_growthAt_mono (G : ℕ) {i j : ℕ} (h : i ≤ j) :
    growthAt G i ≤ growthAt G j := by
  have hij : (i : ℝ) ≤ (j : ℝ) := by exact_mod_cast h
  unfold growthAt
  split_ifs with hi hj
  · apply one_div_le_one_div_of_le
    · positivity
    · have hexp : Real.exp (-(1.5) * ((j : ℝ) - (G : ℝ) / 2)) ≤
          Real.exp (-(1.5) * ((i : ℝ) - (G : ℝ) / 2)) := by
        rw [Real.exp_le_exp]
        linarith
      linarith
  · have h2 := aux_growthAt_le_one G i
    unfold growthAt at h2
    rw [if_pos hi] at h2
    exact h2
  · omega
  · exact le_rfl

lemma aux_trendAt_nonneg (s i : ℕ) : 0 ≤ trendAt s i := by
  simp only [trendAt]
  split_ifs with h1 h2
  · exact le_rfl
  · positivity
  · have hp : ((i - s) % 24 : ℕ) < 24 := Nat.mod_lt _ (by norm_num)
    have hp2 : (((i - s) % 24 : ℕ) : ℝ) < 24 := by exact_mod_cast hp
    have hdiv : ((((i - s) % 24 : ℕ) : ℝ) - 24 * 0.6) / (24 * 0.4) ≤ 1 := by
      rw [div_le_one (by norm_num)]
      linarith
    have hmul : 0.10 *(((((i - s) % 24 : ℕ) : ℝ) - 24 * 0.6) / (24 * 0.4)) ≤ 0.10 * 1 :=
      mul_le_mul_of_nonneg_left hdiv (by norm_num)
    linarith

lemma aux_declineAt_nonneg (c w : ℕ) (post : ℕ → ℝ)
    (hpost : ∀ j, 0 ≤ post j) (i : ℕ) : 0 ≤ churnDeclineAt c w post i := by
  unfold churnDeclineAt
  split_ifs
  · exact hpost i
  · positivity
  · norm_num
  · norm_num

lemma aux_one_add_seasonality_nonneg (m : ℕ) :
    0 ≤ 1 + generate_seasonality m := by
  unfold generate_seasonality
  have h := Real.neg_one_le_sin (2 * Real.pi * (m : ℝ) / 12 + Real.pi / 2)
  nlinarith

lemma aux_seasonality_six : generate_seasonality 6 = -(0.15 : ℝ) := by
  unfold generate_seasonality
  have h : 2 * Real.pi * ((6 : ℕ) : ℝ) / 12 + Real.pi / 2 =
      Real.pi + Real.pi / 2 := by
    push_cast
    ring
  rw [h, Real.sin_add, Real.sin_pi, Real.cos_pi, Real.sin_pi_div_two,
    Real.cos_pi_div_two]
  norm_num

lemma aux_growthAt_six_six : growthAt 6 6 = 1 := by
  unfold growthAt
  norm_num

lemma aux_trendAt_six_six : trendAt 6 6 = 0 := by
  simp only [trendAt]
  norm_num

/-- C7: within the generated window the growth-phase factor equals the
sigmoid `1 / (1 + exp(-1.5 * (i - G / 2)))` for `i < G` and `1.0` for
`i ≥ G`; it always lies in `(0, 1]`, and it is monotonically non-decreasing
in the month index. -/
theorem growth_phase_sigmoid_props (months G i j : ℕ) (hi : i < months)
    (hj : j < months) :
    (i < G → (generate_growth_phase months G).getD i 0 =
        1 / (1 + Real.exp (-(1.5) * ((i : ℝ) - (G : ℝ) / 2))))
      ∧ (G ≤ i → (generate_growth_phase months G).getD i 0 = 1)
      ∧ 0 < (generate_growth_phase months G).getD i 0
      ∧ (generate_growth_phase months G).getD i 0 ≤ 1
      ∧ (i ≤ j → (generate_growth_phase months G).getD i 0 ≤
          (generate_growth_phase months G).getD j 0) := by
  have hgi : (generate_growth_phase months G).getD i 0 = growthAt G i :=
    aux_getD_map_range _ hi _
  have hgj : (generate_growth_phase months G).getD j 0 = growthAt G j :=
    aux_getD_map_range _ hj _
  rw [hgi, hgj]
  refine ⟨?_, ?_, aux_growthAt_pos G i, aux_growthAt_le_one G i, ?_⟩
  · intro h
    unfold growthAt
    rw [if_pos h]
  · intro h
    unfold growthAt
    rw [if_neg (by omega)]
  · intro h
    exact aux_growthAt_mono G h

/-- Witness for `growth_phase_sigmoid_props` at `months = 8`, `G = 6`,
`i = 2`, `j = 3`. -/
theorem growth_phase_sigmoid_props_witness :
    (2 : ℕ) < 8 ∧ (3 : ℕ) < 8 ∧
      ((2 < 6 → (generate_growth_phase 8 6).getD 2 0 =
          1 / (1 + Real.exp (-(1.5) * (((2 : ℕ) : ℝ) - ((6 : ℕ) : ℝ) / 2))))
        ∧ (6 ≤ 2 → (generate_growth_phase 8 6).getD 2 0 = 1)
        ∧ 0 < (generate_growth_phase 8 6).getD 2 0
        ∧ (generate_growth_phase 8 6).getD 2 0 ≤ 1
        ∧ (2 ≤ 3 → (generate_growth_phase 8 6).getD 2 0 ≤
            (generate_growth_phase 8 6).getD 3 0)) :=
  ⟨by norm_num, by norm_num,
    growth_phase_sigmoid_props 8 6 2 3 (by norm_num) (by norm_num)⟩

/-- C5 counterexample: with churn month 3 and the 6-month decline window the
claim requires a small near-zero factor at index 4 ≥ 3, but because
`churn_month > decline_months` fails the generator leaves the factor at 1.0
even though every post-churn residual draw is 0. -/
theorem churn_decline_small_churn_counterexample :
    (generate_churn_decline 5 3 6 (fun _ => 0)).getD 4 0 = 1 ∧
      ¬((generate_churn_decline 5 3 6 (fun _ => 0)).getD 4 0 ≤ 0.05) := by
  have h : (generate_churn_decline 5 3 6 (fun _ => 0)).getD 4 0 =
      churnDeclineAt 3 6 (fun _ => 0) 4 :=
    aux_getD_map_range _ (by norm_num) _
  rw [h]
  unfold churnDeclineAt
  norm_num

/-- C5 amended: when `churn_month > decline_months` the decline factor is 1.0
before the window, equals `0.3 + 0.7 * (churn_month - i) / decline_months`
(strictly above the 0.3 floor and at most 1) inside the window, and equals
the small random residual `post i` at and after the churn month; when
`churn_month ≤ decline_months` the generator applies no decline at all and
the factor is 1.0 at every index. -/
theorem churn_decline_piecewise (months c w : ℕ) (post : ℕ → ℝ) (i : ℕ)
    (hi : i < months) (hw : 0 < w) :
    (w < c →
        ((i < c - w → (generate_churn_decline months c w post).getD i 0 = 1)
          ∧ (c - w ≤ i → i < c →
              (generate_churn_decline months c w post).getD i 0 =
                  0.3 + 0.7 * (((c - i : ℕ) : ℝ) / (w : ℝ))
                ∧ 0.3 < (generate_churn_decline months c w post).getD i 0
                ∧ (generate_churn_decline months c w post).getD i 0 ≤ 1)
          ∧ (c ≤ i →
              (generate_churn_decline months c w post).getD i 0 = post i)))
      ∧ (c ≤ w → (generate_churn_decline months c w post).getD i 0 = 1) := by
  have hg : (generate_churn_decline months c w post).getD i 0 =
      churnDeclineAt c w post i :=
    aux_getD_map_range _ hi _
  rw [hg]
  unfold churnDeclineAt
  constructor
  · intro hwc
    rw [if_pos hwc]
    refine ⟨?_, ?_, ?_⟩
    · intro hlt
      rw [if_neg (by omega), if_neg (by omega)]
    · intro h1 h2
      rw [if_neg (by omega), if_pos h1]
      have hwp : (0 : ℝ) < (w : ℝ) := by exact_mod_cast hw
      have hk : 1 ≤ c - i := by omega
      have hk2 : (1 : ℝ) ≤ ((c - i : ℕ) : ℝ) := by exact_mod_cast hk
      have hkw : c - i ≤ w := by omega
      have hkw2 : ((c - i : ℕ) : ℝ) ≤ (w : ℝ) := by exact_mod_cast hkw
      have hdle : ((c - i : ℕ) : ℝ) / (w : ℝ) ≤ 1 := by
        rw [div_le_one hwp]
        exact hkw2
      have hdpos : 0 < ((c - i : ℕ) : ℝ) / (w : ℝ) :=
        div_pos (by linarith) hwp
      have hmul : 0.7 * (((c - i : ℕ) : ℝ) / (w : ℝ)) ≤ 0.7 * 1 :=
        mul_le_mul_of_nonneg_left hdle (by norm_num)
      refine ⟨rfl, by linarith, by linarith⟩
    · intro hci
      rw [if_pos hci]
  · intro hcw
    rw [if_neg (by omega)]

/-- Witness for `churn_decline_piecewise` at `months = 10`, `c = 8`, `w = 6`,
`post = 0`, `i = 7` (the last month inside the decline window). -/
theorem churn_decline_piecewise_witness :
    (7 : ℕ) < 10 ∧ (0 : ℕ) < 6 ∧
      ((6 < 8 →
          ((7 < 8 - 6 → (generate_churn_decline 10 8 6 (fun _ => 0)).getD 7 0 = 1)
            ∧ (8 - 6 ≤ 7 → 7 < 8 →
                (generate_churn_decline 10 8 6 (fun _ => 0)).getD 7 0 =
                    0.3 + 0.7 * (((8 - 7 : ℕ) : ℝ) / ((6 : ℕ) : ℝ))
                  ∧ 0.3 < (generate_churn_decline 10 8 6 (fun _ => 0)).getD 7 0
                  ∧ (generate_churn_decline 10 8 6 (fun _ => 0)).getD 7 0 ≤ 1)
            ∧ (8 ≤ 7 →
                (generate_churn_decline 10 8 6 (fun _ => 0)).getD 7 0 = 0)))
        ∧ (8 ≤ 6 → (generate_churn_decline 10 8 6 (fun _ => 0)).getD 7 0 = 1)) :=
  ⟨by norm_num, by norm_num,
    churn_decline_piecewise 10 8 6 (fun _ => 0) 7 (by norm_num) (by norm_num)⟩

lemma aux_spec_mult_nonneg (ch : Bool) (cm : Option ℕ) (noise post : ℕ → ℝ)
    (i : ℕ) (hn : ∀ k, 0 ≤ noise k) (hp : ∀ k, 0 ≤ post k) :
    0 ≤ spec_final_multiplier ch cm noise post i := by
  unfold spec_final_multiplier
  refine mul_nonneg (mul_nonneg (mul_nonneg (mul_nonneg ?_ ?_) ?_) ?_) (hn i)
  · exact le_of_lt (aux_growthAt_pos 6 i)
  · linarith [aux_trendAt_nonneg 6 i]
  · exact aux_one_add_seasonality_nonneg (i % 12)
  · rcases ch with _ | _ <;> rcases cm with _ | c
    · norm_num
    · norm_num
    · norm_num
    · dsimp only
      by_cases hc : c = 0
      · rw [if_pos hc]
        norm_num
      · rw [if_neg hc]
        exact aux_declineAt_nonneg c 6 post hp i

lemma aux_usage_row (n : ℕ) (base : List (String × ℝ)) (ch : Bool)
    (cm : Option ℕ) (noise : ℕ → ℝ) (jit : ℕ → ℕ → ℝ) (post : ℕ → ℝ)
    {i : ℕ} (hi : i < n) :
    (generate_user_usage n base ch cm noise jit post).getD i [] =
      base.enum.map (fun p =>
        if floatTyped p.2.1 then
          (p.2.1, round2 (p.2.2 * spec_final_multiplier ch cm noise post i *
            jit i p.1))
        else
          (p.2.1, ((max 0 (pyTrunc (p.2.2 * spec_final_multiplier ch cm noise
            post i * jit i p.1)) : ℤ) : ℝ))) := by
  have hg : (generate_growth_phase n 6).getD i 0 = growthAt 6 i :=
    aux_getD_map_range _ hi _
  have ht : (generate_trend n 6).getD i 0 = trendAt 6 i :=
    aux_getD_map_range _ hi _
  have hrep : (List.replicate n (1 : ℝ)).getD i 0 = 1 := aux_getD_replicate hi _ _
  rcases ch with _ | _ <;> rcases cm with _ | c
  · simp only [generate_user_usage, spec_final_multiplier]
    rw [aux_getD_map_range _ hi]
    simp only [hg, ht, hrep]
  · simp only [generate_user_usage, spec_final_multiplier]
    rw [aux_getD_map_range _ hi]
    simp only [hg, ht, hrep]
  · simp only [generate_user_usage, spec_final_multiplier]
    rw [aux_getD_map_range _ hi]
    simp only [hg, ht, hrep]
  · by_cases hc : c = 0
    · simp only [generate_user_usage, spec_final_multiplier, if_pos hc]
      rw [aux_getD_map_range _ hi]
      simp only [hg, ht, hrep]
    · have hd : (generate_churn_decline n c 6 post).getD i 0 =
          churnDeclineAt c 6 post i :=
        aux_getD_map_range _ hi _
      simp only [generate_user_usage, spec_final_multiplier, if_neg hc]
      rw [aux_getD_map_range _ hi]
      simp only [hg, ht, hd]

/-- C6: every metric in the synthesizer's row for month index `i` is the
rounded/clamped value of `baseline * M * jitter` where the multiplier `M`
follows the spec's composition rule `growth(i) * (1 + trend(i)) *
(1 + seasonal(i mod 12)) * churn_decline(i) * noise`, with `noise` a single
per-month draw shared by all metrics of the month. -/
theorem final_multiplier_composition (n : ℕ) (base : List (String × ℝ))
    (ch : Bool) (cm : Option ℕ) (noise : ℕ → ℝ) (jit : ℕ → ℕ → ℝ)
    (post : ℕ → ℝ) (i : ℕ) (hi : i < n) :
    (generate_user_usage n base ch cm noise jit post).getD i [] =
      base.enum.map (fun p =>
        if floatTyped p.2.1 then
          (p.2.1, round2 (p.2.2 * spec_final_multiplier ch cm noise post i *
            jit i p.1))
        else
          (p.2.1, ((max 0 (pyTrunc (p.2.2 * spec_final_multiplier ch cm noise
            post i * jit i p.1)) : ℤ) : ℝ))) :=
  aux_usage_row n base ch cm noise jit post hi

/-- Witness for `final_multiplier_composition` at one month and one metric. -/
theorem final_multiplier_composition_witness :
    (0 : ℕ) < 1 ∧
      (generate_user_usage 1 [("A", (1 : ℝ))] false none (fun _ => 1)
          (fun _ _ => 1) (fun _ => 0)).getD 0 [] =
        [("A", (1 : ℝ))].enum.map (fun p =>
          if floatTyped p.2.1 then
            (p.2.1, round2 (p.2.2 *
              spec_final_multiplier false none (fun _ => 1) (fun _ => 0) 0 * 1))
          else
            (p.2.1, ((max 0 (pyTrunc (p.2.2 *
              spec_final_multiplier false none (fun _ => 1) (fun _ => 0) 0 * 1)) :
                ℤ) : ℝ))) :=
  ⟨by norm_num,
    final_multiplier_composition 1 [("A", (1 : ℝ))] false none (fun _ => 1)
      (fun _ _ => 1) (fun _ => 0) 0 (by norm_num)⟩

lemma aux_spec_mult_six (noise post : ℕ → ℝ) :
    spec_final_multiplier false none noise post 6 = 0.85 * noise 6 := by
  unfold spec_final_multiplier
  rw [aux_growthAt_six_six, aux_trendAt_six_six,
    show (6 % 12 : ℕ) = 6 from by norm_num, aux_seasonality_six]
  dsimp only
  ring_nf

lemma aux_clampInt_eval (x : ℝ) (z : ℤ) (h1 : (z : ℝ) ≤ x) (h2 : x < z + 1)
    (h3 : 0 ≤ z) : ((max 0 (pyTrunc x) : ℤ) : ℝ) = (z : ℝ) := by
  unfold pyTrunc
  have hx0 : (0 : ℝ) ≤ x := le_trans (by exact_mod_cast h3) h1
  rw [if_pos hx0]
  have hf : Int.floor x = z := Int.floor_eq_iff.mpr ⟨h1, h2⟩
  rw [hf, max_eq_right h3]

lemma aux_round2_eval (x : ℝ) (z : ℤ) (hx : 100 * x = (z : ℝ)) :
    round2 x = (z : ℝ) / 100 := by
  unfold round2
  rw [hx, aux_rhe_intCast]

/-- C1 counterexample: float-typed (minute) metrics are rounded but not
clamped at 0.  At month index 6 the code multiplier is exactly 0.85, so a
negative Gaussian noise draw of -1 (the normal distribution is unbounded)
yields the negative output -382.5 for a minutes metric with baseline 450,
contradicting the claim that float metrics are clamped to be nonnegative. -/
theorem usage_float_metric_negative_counterexample :
    (generate_user_usage 7 [("M_MINS", (450 : ℝ))] false none (fun _ => -1)
        (fun _ _ => 1) (fun _ => 0)).getD 6 [] = [("M_MINS", (-382.5 : ℝ))] ∧
      (-382.5 : ℝ) < 0 := by
  refine ⟨?_, by norm_num⟩
  rw [aux_usage_row 7 [("M_MINS", (450 : ℝ))] false none (fun _ => -1)
    (fun _ _ => 1) (fun _ => 0) (by norm_num)]
  have hm : spec_final_multiplier false none (fun _ => (-1 : ℝ)) (fun _ => 0) 6 =
      -0.85 := by
    rw [aux_spec_mult_six]
    norm_num
  have hft : floatTyped "M_MINS" = true := rfl
  have hval : round2 ((450 : ℝ) * -0.85 * 1) = -382.5 := by
    rw [aux_round2_eval ((450 : ℝ) * -0.85 * 1) (-38250) (by norm_num)]
    norm_num
  have hlist : ([("M_MINS", (450 : ℝ))]).enum = [(0, ("M_MINS", (450 : ℝ)))] :=
    rfl
  rw [hlist, List.map_cons, List.map_nil]
  dsimp only
  rw [hm, if_pos hft, hval]

/-- C2 counterexample: in `generate_user_usage` every metric receives its own
independent jitter draw and truncation, so component metrics need not sum to
the totals.  At month index 6 (multiplier 0.85) with jitter 1.0 for the
total and 1.1 for the components, inbound (74) + outbound (65) = 139 differs
from the total call count 127. -/
theorem usage_user_component_sums_counterexample :
    (generate_user_usage 7
        [("PHONE_TOTAL_CALLS", (150 : ℝ)),
          ("PHONE_TOTAL_NUM_INBOUND_CALLS", (80 : ℝ)),
          ("PHONE_TOTAL_NUM_OUTBOUND_CALLS", (70 : ℝ))] false none
        (fun _ => 1) (fun _ j => if j = 0 then 1 else 1.1)
        (fun _ => 0)).getD 6 [] =
      [("PHONE_TOTAL_CALLS", (127 : ℝ)),
        ("PHONE_TOTAL_NUM_INBOUND_CALLS", (74 : ℝ)),
        ("PHONE_TOTAL_NUM_OUTBOUND_CALLS", (65 : ℝ))] ∧
      (74 : ℝ) + 65 ≠ 127 := by
  refine ⟨?_, by norm_num⟩
  rw [aux_usage_row 7 _ false none _ _ _ (by norm_num)]
  have hm : spec_final_multiplier false none (fun _ => (1 : ℝ)) (fun _ => 0) 6 =
      0.85 := by
    rw [aux_spec_mult_six]
    norm_num
  have hn1 : ¬(floatTyped "PHONE_TOTAL_CALLS" = true) := by decide
  have hn2 : ¬(floatTyped "PHONE_TOTAL_NUM_INBOUND_CALLS" = true) := by decide
  have hn3 : ¬(floatTyped "PHONE_TOTAL_NUM_OUTBOUND_CALLS" = true) := by decide
  have hlist : ([("PHONE_TOTAL_CALLS", (150 : ℝ)),
      ("PHONE_TOTAL_NUM_INBOUND_CALLS", (80 : ℝ)),
      ("PHONE_TOTAL_NUM_OUTBOUND_CALLS", (70 : ℝ))]).enum =
      [(0, ("PHONE_TOTAL_CALLS", (150 : ℝ))),
        (1, ("PHONE_TOTAL_NUM_INBOUND_CALLS", (80 : ℝ))),
        (2, ("PHONE_TOTAL_NUM_OUTBOUND_CALLS", (70 : ℝ)))] := rfl
  rw [hlist, List.map_cons, List.map_cons, List.map_cons, List.map_nil]
  dsimp only
  rw [hm, if_neg hn1, if_neg hn2, if_neg hn3,
    if_pos (rfl : (0 : ℕ) = 0), if_neg (by norm_num : ¬(1 : ℕ) = 0),
    if_neg (by norm_num : ¬(2 : ℕ) = 0)]
  have hv1 : ((max 0 (pyTrunc ((150 : ℝ) * 0.85 * 1)) : ℤ) : ℝ) =
      ((127 : ℤ) : ℝ) :=
    aux_clampInt_eval _ 127 (by norm_num) (by norm_num) (by norm_num)
  have hv2 : ((max 0 (pyTrunc ((80 : ℝ) * 0.85 * 1.1)) : ℤ) : ℝ) =
      ((74 : ℤ) : ℝ) :=
    aux_clampInt_eval _ 74 (by norm_num) (by norm_num) (by norm_num)
  have hv3 : ((max 0 (pyTrunc ((70 : ℝ) * 0.85 * 1.1)) : ℤ) : ℝ) =
      ((65 : ℤ) : ℝ) :=
    aux_clampInt_eval _ 65 (by norm_num) (by norm_num) (by norm_num)
  rw [hv1, hv2, hv3]
  norm_num

/-- C1 amended: whenever every random draw (per-month noise, per-metric
jitter, post-churn residuals) and every profile baseline is nonnegative,
every metric the synthesizer outputs is nonnegative: integer-typed count
metrics are truncated and clamped at 0, float-typed minute metrics are
rounded to two decimals (a nonnegative noise draw keeps them nonnegative;
they are not clamped by the code). -/
theorem usage_metrics_nonneg (n : ℕ) (base : List (String × ℝ)) (ch : Bool)
    (cm : Option ℕ) (noise : ℕ → ℝ) (jit : ℕ → ℕ → ℝ) (post : ℕ → ℝ)
    (hb : ∀ p ∈ base, 0 ≤ p.2) (hn : ∀ k, 0 ≤ noise k)
    (hj : ∀ k l, 0 ≤ jit k l) (hp : ∀ k, 0 ≤ post k) :
    ∀ row ∈ generate_user_usage n base ch cm noise jit post,
      ∀ q ∈ row, 0 ≤ q.2 := by
  intro row hrow q hq
  obtain ⟨i, hi, hEl⟩ := List.getElem_of_mem hrow
  have hlen : (generate_user_usage n base ch cm noise jit post).length = n := by
    simp [generate_user_usage]
  have hi2 : i < n := by
    rw [hlen] at hi
    exact hi
  have hr2 : row = (generate_user_usage n base ch cm noise jit post).getD i [] := by
    rw [List.getD_eq_getElem?_getD, List.getElem?_eq_getElem hi]
    simpa using hEl.symm
  rw [hr2, aux_usage_row n base ch cm noise jit post hi2] at hq
  simp only [List.mem_map] at hq
  obtain ⟨p, hpmem, hq2⟩ := hq
  have hpbase : p.2 ∈ base := by
    rw [List.enum_eq_zip_range] at hpmem
    have hz : (p.1, p.2) ∈ (List.range base.length).zip base := by
      simpa using hpmem
    exact (List.of_mem_zip hz).2
  have hM : 0 ≤ spec_final_multiplier ch cm noise post i :=
    aux_spec_mult_nonneg ch cm noise post i hn hp
  have hprod : 0 ≤ p.2.2 * spec_final_multiplier ch cm noise post i * jit i p.1 :=
    mul_nonneg (mul_nonneg (hb p.2 hpbase) hM) (hj i p.1)
  rw [← hq2]
  by_cases hft : floatTyped p.2.1 = true
  · rw [if_pos hft]
    exact aux_round2_nonneg hprod
  · rw [if_neg hft]
    show (0 : ℝ) ≤ ((max 0 (pyTrunc (p.2.2 *
      spec_final_multiplier ch cm noise post i * jit i p.1)) : ℤ) : ℝ)
    have hmax : (0 : ℤ) ≤ max 0 (pyTrunc (p.2.2 *
        spec_final_multiplier ch cm noise post i * jit i p.1)) :=
      le_max_left 0 _
    exact_mod_cast hmax

/-- Witness for `usage_metrics_nonneg` with a one-metric profile and all
draws equal to their distribution means. -/
theorem usage_metrics_nonneg_witness :
    (∀ p ∈ [("VOICE_MINS", (380 : ℝ))], 0 ≤ p.2) ∧
      (∀ row ∈ generate_user_usage 3 [("VOICE_MINS", (380 : ℝ))] false none
          (fun _ => 1) (fun _ _ => 1) (fun _ => 0),
        ∀ q ∈ row, 0 ≤ q.2) :=
  ⟨by norm_num,
    usage_metrics_nonneg 3 [("VOICE_MINS", (380 : ℝ))] false none
      (fun _ => 1) (fun _ _ => 1) (fun _ => 0) (by norm_num)
      (fun _ => by norm_num) (fun _ _ => by norm_num) (fun _ => by norm_num)⟩

lemma aux_round2_pair (tm : ℤ) (v : ℚ) :
    round2 v + round2 ((tm : ℚ) - v) = (tm : ℚ) := by
  unfold round2
  have h : (100 : ℚ) * ((tm : ℚ) - v) = ((100 * tm : ℤ) : ℚ) - 100 * v := by
    push_cast
    ring
  rw [h]
  have hp := aux_rhe_pair (100 * tm) (by omega) ((100 : ℚ) * v)
  rw [div_add_div_same,
    show ((rhe ((100 : ℚ) * v) : ℤ) : ℚ) +
        ((rhe (((100 * tm : ℤ) : ℚ) - 100 * v) : ℤ) : ℚ) =
        ((100 * tm : ℤ) : ℚ) from by exact_mod_cast hp]
  push_cast
  ring

/-- C2 amended: in `generate_usage_pattern` the headline component sums hold
by construction in every generated row: inbound + outbound calls equal total
calls, voice + fax calls equal total calls, inbound + outbound minutes equal
total minutes, and voice + fax minutes equal total minutes (the minutes sums
survive the 2-decimal rounding because the two rounded halves of an integer
total always recombine to it under round-half-even).  In
`generate_user_usage` the sums do not hold (see the counterexample). -/
theorem usage_pattern_component_sums (numUsers monthsData : ℕ)
    (churnMonth : Option ℤ) (onboardMonth : ℤ) (baseCalls baseMins : ℤ)
    (tt : TrendType) (dr : ℕ → MonthDraws) :
    ∀ r ∈ generate_usage_pattern numUsers monthsData churnMonth onboardMonth
        baseCalls baseMins tt dr,
      r.inboundCalls + r.outboundCalls = r.phoneTotalCalls
        ∧ r.voiceCalls + r.faxCalls = r.phoneTotalCalls
        ∧ r.inboundMin + r.outboundMin = r.phoneTotalMinutesOfUse
        ∧ r.voiceMins + r.faxMins = r.phoneTotalMinutesOfUse := by
  intro r hr
  simp only [generate_usage_pattern, List.mem_map] at hr
  obtain ⟨i, hi, hreq⟩ := hr
  rw [← hreq]
  simp only [usagePatternRow]
  refine ⟨?_, ?_, ?_, ?_⟩
  · push_cast
    ring
  · push_cast
    ring
  · rw [aux_round2_intCast]
    exact aux_round2_pair _ _
  · rw [aux_round2_intCast]
    exact aux_round2_pair _ _

/-- A concrete draw assignment (all draws at plausible values) shared by the
witnesses below. -/
def drEx : ℕ → MonthDraws := fun _ => ⟨0, 1, 1, 0.9, 0.5, 1, 0.4, 0.4⟩

/-- The single usage row of the one-month witness account. -/
def c2WitnessRow : UsageRow :=
  usagePatternRow 1 none 0 50 100 TrendType.stable drEx 0

/-- Witness for `usage_pattern_component_sums` on a one-month pattern. -/
theorem usage_pattern_component_sums_witness :
    c2WitnessRow ∈ generate_usage_pattern 1 1 none 0 50 100 TrendType.stable
        drEx ∧
      (c2WitnessRow.inboundCalls + c2WitnessRow.outboundCalls =
          c2WitnessRow.phoneTotalCalls
        ∧ c2WitnessRow.voiceCalls + c2WitnessRow.faxCalls =
            c2WitnessRow.phoneTotalCalls
        ∧ c2WitnessRow.inboundMin + c2WitnessRow.outboundMin =
            c2WitnessRow.phoneTotalMinutesOfUse
        ∧ c2WitnessRow.voiceMins + c2WitnessRow.faxMins =
            c2WitnessRow.phoneTotalMinutesOfUse) :=
  ⟨by
      rw [show generate_usage_pattern 1 1 none 0 50 100 TrendType.stable drEx =
        [c2WitnessRow] from rfl]
      exact List.mem_singleton.mpr rfl,
    usage_pattern_component_sums 1 1 none 0 50 100 TrendType.stable drEx
      c2WitnessRow (by
        rw [show generate_usage_pattern 1 1 none 0 50 100 TrendType.stable drEx =
          [c2WitnessRow] from rfl]
        exact List.mem_singleton.mpr rfl)⟩

/-- C3 counterexample: `generate_user_usage` (the `generate_phone_usage_data`
/ `function.py` path) still emits one row for every month of the window even
for a churned user: with a 3-month window and churn month 1 it produces 3
monthly rows, so rows exist for months 1 and 2, at and after the churn
month (they are merely scaled toward zero). -/
theorem usage_rows_after_churn_counterexample :
    (generate_user_usage 3 [("A", (1 : ℝ))] true (some 1) (fun _ => 1)
        (fun _ _ => 1) (fun _ => 0)).length = 3 ∧ (1 : ℕ) < 3 := by
  constructor
  · simp [generate_user_usage]
  · norm_num

/-- C3 amended: in `generate_usage_data` (`generate_realistic_data.py`) a
churned account's usage records cover exactly the months from onboarding up
to the churn month exclusive: every emitted record's month is `≥ onboard`
and `< churn`. -/
theorem usage_months_before_churn (a : RAccount) (baseCalls baseMins : ℤ)
    (tt : TrendType) (dr : ℕ → MonthDraws) (c : ℤ) (hc : a.churn = some c) :
    ∀ rec ∈ generate_usage_records a baseCalls baseMins tt dr,
      a.onboard ≤ rec.2.1 ∧ rec.2.1 < c := by
  intro rec hrec
  simp only [generate_usage_records, List.mem_map] at hrec
  obtain ⟨⟨j, u⟩, hp, hpe⟩ := hrec
  rw [List.enum_eq_zip_range] at hp
  have hj : j ∈ List.range (generate_usage_pattern a.numUsers (monthsOfData a)
      a.churn a.onboard baseCalls baseMins tt dr).length :=
    (List.of_mem_zip hp).1
  rw [List.mem_range] at hj
  have hlen : (generate_usage_pattern a.numUsers (monthsOfData a) a.churn
      a.onboard baseCalls baseMins tt dr).length = monthsOfData a := by
    simp [generate_usage_pattern]
  rw [hlen] at hj
  have hmod : monthsOfData a = (c - a.onboard).toNat := by
    simp only [monthsOfData, hc]
  rw [hmod] at hj
  have hj2 : (j : ℤ) < c - a.onboard := Int.lt_toNat.mp hj
  rw [← hpe]
  dsimp only
  omega

/-- The one-month churned account used by the witness below: onboarded at
month 0 with churn month 1, so exactly one usage record exists. -/
def aExC3 : RAccount := ⟨1, 1, 0, some 1, "C", "B", "P", "T", "E"⟩

/-- The single usage record the realistic generator emits for `aExC3`. -/
def c3WitnessRec : ℕ × ℤ × UsageRow :=
  (1, (0 : ℤ) + ((0 : ℕ) : ℤ),
    usagePatternRow 1 (some 1) 0 50 100 TrendType.stable drEx 0)

/-- Witness for `usage_months_before_churn` on the one-month account. -/
theorem usage_months_before_churn_witness :
    aExC3.churn = some 1 ∧
      c3WitnessRec ∈ generate_usage_records aExC3 50 100 TrendType.stable drEx ∧
      (aExC3.onboard ≤ c3WitnessRec.2.1 ∧ c3WitnessRec.2.1 < 1) :=
  ⟨rfl,
    by
      rw [show generate_usage_records aExC3 50 100 TrendType.stable drEx =
        [c3WitnessRec] from rfl]
      exact List.mem_singleton.mpr rfl,
    usage_months_before_churn aExC3 50 100 TrendType.stable drEx 1 rfl
      c3WitnessRec
      (by
        rw [show generate_usage_records aExC3 50 100 TrendType.stable drEx =
          [c3WitnessRec] from rfl]
        exact List.mem_singleton.mpr rfl)⟩

/-- A valid (non-empty) configuration with a zero account count, and a
default draw assignment, used by the C9 theorems. -/
def cfgEx : GenConfig :=
  ⟨0, ["Acme"], [(1, "B")], [("U", "UD")], [(1, "P", "CP", "CPN")],
    [(1, "T", "E")], ["O"]⟩

/-- C9 counterexample: `generate_account_data` validates only the choice
lists; with all lists non-empty and `NUM_ENTERPRISE_ACCOUNTS = 0` it silently
returns an empty table instead of failing fast. -/
theorem nonpositive_accounts_silent_counterexample :
    generate_account_data cfgEx 0 (fun _ => default) = Except.ok [] ∧
      Except.ok ([] : List AccountRecord) ≠ Except.error configErrorMsg := by
  constructor
  · rfl
  · simp

/-- C9 amended: an empty required configuration list makes
`generate_account_data` fail fast with the descriptive `ValueError` message;
a non-positive account count is not validated, and with valid lists it
silently yields the empty record list. -/
theorem degenerate_config_behavior (cfg : GenConfig) (mostRecent : ℤ)
    (draws : ℕ → AccountDraws) :
    ((cfg.companies = [] ∨ cfg.brands = [] ∨ cfg.ubrands = [] ∨
        cfg.packages = [] ∨ cfg.tiers = [] ∨ cfg.opcos = []) →
        generate_account_data cfg mostRecent draws = Except.error configErrorMsg)
      ∧ (cfg.companies ≠ [] → cfg.brands ≠ [] → cfg.ubrands ≠ [] →
          cfg.packages ≠ [] → cfg.tiers ≠ [] → cfg.opcos ≠ [] →
          cfg.numAccounts ≤ 0 →
          generate_account_data cfg mostRecent draws = Except.ok []) := by
  constructor
  · intro h
    unfold generate_account_data
    rw [if_pos h]
  · intro h1 h2 h3 h4 h5 h6 hnum
    unfold generate_account_data
    rw [if_neg (by tauto), Int.toNat_of_nonpos hnum]
    rfl

/-- Witness for `degenerate_config_behavior` on `cfgEx`. -/
theorem degenerate_config_behavior_witness :
    cfgEx.companies ≠ [] ∧ cfgEx.brands ≠ [] ∧ cfgEx.ubrands ≠ [] ∧
      cfgEx.packages ≠ [] ∧ cfgEx.tiers ≠ [] ∧ cfgEx.opcos ≠ [] ∧
      cfgEx.numAccounts ≤ 0 ∧
      generate_account_data cfgEx 0 (fun _ => default) = Except.ok [] :=
  ⟨by simp [cfgEx], by simp [cfgEx], by simp [cfgEx], by simp [cfgEx],
    by simp [cfgEx], by simp [cfgEx], by norm_num [cfgEx],
    (degenerate_config_behavior cfgEx 0 (fun _ => default)).2
      (by simp [cfgEx]) (by simp [cfgEx]) (by simp [cfgEx]) (by simp [cfgEx])
      (by simp [cfgEx]) (by simp [cfgEx]) (by norm_num [cfgEx])⟩

lemma aux_genAccountRecords_shape (eaId : ℕ) (d : AccountDraws)
    (months : List ℤ) :
    ∀ r ∈ genAccountRecords eaId d months,
      ∃ m s, r = mkAccountRecord eaId d m s := by
  intro r hr
  simp only [genAccountRecords] at hr
  rcases hIM : (if d.willInactive then months[d.inactiveIdx]? else none)
    with _ | im
  · rw [hIM] at hr
    dsimp only at hr
    simp only [List.mem_map] at hr
    obtain ⟨m, hm, hmk⟩ := hr
    exact ⟨m, "Active", hmk.symm⟩
  · rw [hIM] at hr
    dsimp only at hr
    rw [List.mem_append] at hr
    rcases hr with hr | hr
    · simp only [List.mem_map] at hr
      obtain ⟨m, hm, hmk⟩ := hr
      exact ⟨m, "Active", hmk.symm⟩
    · rw [List.mem_singleton] at hr
      exact ⟨im, d.nonActiveStatus, hr⟩

/-- C10: in every record of `generate_account_data`'s per-account output the
enterprise status `EA_ACCT_STATUS` is the constant `'Active'`; only the
service status `SA_ACCT_STATUS` ever takes the drawn non-active value, and
only in the terminal record. -/
theorem ea_status_always_active (eaId : ℕ) (d : AccountDraws)
    (months : List ℤ)
    (hst : d.nonActiveStatus = "Suspended" ∨ d.nonActiveStatus = "Closed") :
    ∀ r ∈ genAccountRecords eaId d months,
      r.eaAcctStatus = "Active" ∧
        (r.saAcctStatus ≠ "Active" →
          (genAccountRecords eaId d months).getLast? = some r ∧
            (r.saAcctStatus = "Suspended" ∨ r.saAcctStatus = "Closed")) := by
  intro r hr
  simp only [genAccountRecords] at hr ⊢
  rcases hIM : (if d.willInactive then months[d.inactiveIdx]? else none)
    with _ | im
  · rw [hIM] at hr
    dsimp only at hr
    simp only [List.mem_map] at hr
    obtain ⟨m, hm, hmk⟩ := hr
    refine ⟨by rw [← hmk]; rfl, ?_⟩
    intro habs
    rw [← hmk] at habs
    exact absurd rfl habs
  · rw [hIM] at hr
    dsimp only at hr
    rw [List.mem_append] at hr
    rcases hr with hr | hr
    · simp only [List.mem_map] at hr
      obtain ⟨m, hm, hmk⟩ := hr
      refine ⟨by rw [← hmk]; rfl, ?_⟩
      intro habs
      rw [← hmk] at habs
      exact absurd rfl habs
    · rw [List.mem_singleton] at hr
      subst hr
      exact ⟨rfl, fun _ => ⟨List.getLast?_concat _, hst⟩⟩

/-- The fixed per-account draws used by the account-table witnesses. -/
def dExC10 : AccountDraws :=
  { numMonths := 3, company := "Acme", eaBrandId := 1, eaBrandName := "B",
    eaUbrandId := "U", eaUbrandDescription := "UD", serviceAccountId := 1234,
    saBrandId := 2, saBrandName := "SB", saUbrandId := "SU",
    saUbrandDescription := "SUD", packageId := 1, packageName := "P",
    catalogPackageId := "CP", catalogPackageName := "CPN", tierId := 1,
    tierName := "T", editionName := "E", isTester := false, ban := "BAN-1",
    opco := "O", willInactive := true, inactiveIdx := 1,
    nonActiveStatus := "Closed" }

/-- The terminal (non-active) record of the witness account. -/
def recExC10 : AccountRecord := mkAccountRecord 1 dExC10 11 "Closed"

/-- Witness for `ea_status_always_active` on a three-month account that goes
inactive at its second month. -/
theorem ea_status_always_active_witness :
    (dExC10.nonActiveStatus = "Suspended" ∨
        dExC10.nonActiveStatus = "Closed") ∧
      recExC10 ∈ genAccountRecords 1 dExC10 [10, 11, 12] ∧
      (recExC10.eaAcctStatus = "Active" ∧
        (recExC10.saAcctStatus ≠ "Active" →
          (genAccountRecords 1 dExC10 [10, 11, 12]).getLast? = some recExC10 ∧
            (recExC10.saAcctStatus = "Suspended" ∨
              recExC10.saAcctStatus = "Closed"))) :=
  ⟨Or.inr rfl,
    by
      rw [show genAccountRecords 1 dExC10 [10, 11, 12] =
        [mkAccountRecord 1 dExC10 10 "Active", recExC10] from rfl]
      exact List.mem_cons_of_mem _ (List.mem_singleton.mpr rfl),
    ea_status_always_active 1 dExC10 [10, 11, 12] (Or.inr rfl) recExC10
      (by
        rw [show genAccountRecords 1 dExC10 [10, 11, 12] =
          [mkAccountRecord 1 dExC10 10 "Active", recExC10] from rfl]
        exact List.mem_cons_of_mem _ (List.mem_singleton.mpr rfl))⟩

/-- The two-month churned account used by the C8 theorems: onboarded at
month 100, churned at month 101, so it has exactly two attribute rows. -/
def aExC8 : RAccount := ⟨7, 1, 100, some 101, "C", "B", "P", "T", "E"⟩

/-- C8 counterexample: in `generate_account_attributes`
(`generate_realistic_data.py`) the `OPCO_ID` is freshly drawn with
`random.randint(1, 5)` inside the month loop, so two rows of the same
account can carry different opco values. -/
theorem opco_varies_counterexample :
    ((generate_account_attributes aExC8 (fun i => i + 1) (fun _ => 0))[0]?).map
        (fun r => r.opcoId) = some "OP1" ∧
      ((generate_account_attributes aExC8 (fun i => i + 1)
          (fun _ => 0))[1]?).map (fun r => r.opcoId) = some "OP2" ∧
      ("OP1" : String) ≠ "OP2" := by
  refine ⟨rfl, rfl, by decide⟩

/-- C8 amended: in `generate_account_data` (`function.py`) every descriptive
attribute, including `IS_TESTER`, `BAN` and `OPCO_ID`, is identical across
all of an account's rows (only `SA_ACCT_STATUS` is month-dependent); in
`generate_account_attributes` (`generate_realistic_data.py`) the same holds
for every fixed attribute except `OPCO_ID`, which is redrawn every month
(the mutable fields there are the two status columns). -/
theorem fixed_attributes_constant (eaId : ℕ) (d : AccountDraws)
    (months : List ℤ) (a : RAccount) (opcoDraw : ℕ → ℕ)
    (hashF : String → ℤ) :
    (∀ r ∈ genAccountRecords eaId d months,
        r.enterpriseAccountId = eaId ∧ r.company = d.company ∧
          r.eaBrandId = d.eaBrandId ∧ r.eaBrandName = d.eaBrandName ∧
          r.eaUbrandId = d.eaUbrandId ∧
          r.eaUbrandDescription = d.eaUbrandDescription ∧
          r.serviceAccountId = d.serviceAccountId ∧
          r.saBrandId = d.saBrandId ∧ r.saBrandName = d.saBrandName ∧
          r.saUbrandId = d.saUbrandId ∧
          r.saUbrandDescription = d.saUbrandDescription ∧
          r.packageId = d.packageId ∧ r.packageName = d.packageName ∧
          r.catalogPackageId = d.catalogPackageId ∧
          r.catalogPackageName = d.catalogPackageName ∧
          r.isTester = d.isTester ∧ r.tierId = d.tierId ∧
          r.tierName = d.tierName ∧ r.editionName = d.editionName ∧
          r.externalAccountId = "EXT-" ++ pad8 eaId ∧ r.ban = d.ban ∧
          r.opcoId = d.opco)
      ∧ (∀ r ∈ generate_account_attributes a opcoDraw hashF,
          r.enterpriseAccountId = a.accountId ∧ r.company = a.company ∧
            r.eaBrandId = hashF a.brand % 1000 ∧ r.eaBrandName = a.brand ∧
            r.eaUbrandId = "UB" ++ toString (hashF a.brand % 100) ∧
            r.eaUbrandDescription = a.brand ∧
            r.serviceAccountId = a.accountId ∧
            r.saBrandId = hashF a.brand % 1000 ∧ r.saBrandName = a.brand ∧
            r.saUbrandId = "UB" ++ toString (hashF a.brand % 100) ∧
            r.saUbrandDescription = a.brand ∧
            r.packageId = hashF a.package % 100 ∧
            r.packageName = a.package ∧
            r.catalogPackageId = "CP" ++ toString (hashF a.package % 1000) ∧
            r.catalogPackageName = a.package ∧ r.isTester = false ∧
            r.tierId = hashF a.tier % 10 ∧ r.tierName = a.tier ∧
            r.editionName = a.edition ∧
            r.externalAccountId = "EA" ++ toString a.accountId ∧
            r.ban = "BAN" ++ toString a.accountId) := by
  constructor
  · intro r hr
    obtain ⟨m, s, rfl⟩ := aux_genAccountRecords_shape eaId d months r hr
    simp [mkAccountRecord]
  · intro r hr
    simp only [generate_account_attributes, List.mem_map, List.mem_range] at hr
    obtain ⟨i, hi, hmk⟩ := hr
    rw [← hmk]
    simp

/-- Witness for `fixed_attributes_constant`: the first row of each witness
account. -/
theorem fixed_attributes_constant_witness :
    mkAccountRecord 1 dExC10 10 "Active" ∈
        genAccountRecords 1 dExC10 [10, 11, 12] ∧
      ((mkAccountRecord 1 dExC10 10 "Active").company = dExC10.company ∧
        (mkAccountRecord 1 dExC10 10 "Active").opcoId = dExC10.opco) ∧
      (generate_account_attributes aExC8 (fun i => i + 1) (fun _ => 0)).length =
        2 := by
  have hmem : mkAccountRecord 1 dExC10 10 "Active" ∈
      genAccountRecords 1 dExC10 [10, 11, 12] := by
    rw [show genAccountRecords 1 dExC10 [10, 11, 12] =
      [mkAccountRecord 1 dExC10 10 "Active", recExC10] from rfl]
    exact List.mem_cons_self _ _
  have h := (fixed_attributes_constant 1 dExC10 [10, 11, 12] aExC8
    (fun i => i + 1) (fun _ => 0)).1 (mkAccountRecord 1 dExC10 10 "Active") hmem
  exact ⟨hmem, ⟨h.2.1, h.2.2.2.2.2.2.2.2.2.2.2.2.2.2.2.2.2.2.2.2.2⟩, rfl⟩

/-- `generate_churn_records` from `generate_realistic_data.py`: one record
per account, `(USERID, CHURN_DATE, CHURNED)`. -/
def generate_churn_records_r (accounts : List RAccount) :
    List (ℕ × Option ℤ × ℕ) :=
  accounts.map (fun a =>
    match a.churn with
    | some c => (a.accountId, some c, 1)
    | none => (a.accountId, none, 0))

lemma aux_filter_active_nil (eaId : ℕ) (d : AccountDraws) (ms : List ℤ) :
    ((ms.map (fun m => mkAccountRecord eaId d m "Active")).filter
      (fun r => decide (r.saAcctStatus ∈ churn_statuses))) = [] := by
  induction ms with
  | nil => rfl
  | cons h t ih =>
      rw [List.map_cons, List.filter_cons]
      rw [if_neg (by simp [mkAccountRecord, churn_statuses]), ih]

lemma aux_churn_fn_part (mostRecent : ℤ) (n eaId : ℕ) (d : AccountDraws)
    (im : ℤ) (hwi : d.willInactive = true)
    (hst : d.nonActiveStatus = "Suspended" ∨ d.nonActiveStatus = "Closed")
    (him : (generate_month_sequence mostRecent n)[d.inactiveIdx]? = some im) :
    churnDateFor (genAccountRecords eaId d (generate_month_sequence mostRecent n))
        d.serviceAccountId = some im
      ∧ mkAccountRecord eaId d im d.nonActiveStatus ∈
          genAccountRecords eaId d (generate_month_sequence mostRecent n)
      ∧ (∀ r ∈ genAccountRecords eaId d (generate_month_sequence mostRecent n),
          r.month ≤ im)
      ∧ (genAccountRecords eaId d (generate_month_sequence mostRecent n)).getLast? =
          some (mkAccountRecord eaId d im d.nonActiveStatus)
      ∧ (∀ r ∈ genAccountRecords eaId d (generate_month_sequence mostRecent n),
          r.month < im → r.saAcctStatus = "Active") := by
  have hIM : (if d.willInactive = true then
      (generate_month_sequence mostRecent n)[d.inactiveIdx]? else none) =
      some im := by
    rw [hwi, if_pos rfl]
    exact him
  have hrecs : genAccountRecords eaId d (generate_month_sequence mostRecent n) =
      (((generate_month_sequence mostRecent n).takeWhile
          (fun m => decide (m < im))).map
        (fun m => mkAccountRecord eaId d m "Active")) ++
        [mkAccountRecord eaId d im d.nonActiveStatus] := by
    simp only [genAccountRecords, hIM]
  refine ⟨?_, ?_, ?_, ?_, ?_⟩
  · unfold churnDateFor
    rw [hrecs, List.filter_append, aux_filter_active_nil, List.nil_append]
    have hstm : decide (d.nonActiveStatus ∈ churn_statuses) = true := by
      rcases hst with h | h <;> rw [h] <;> rfl
    have hc1 : decide ((mkAccountRecord eaId d im
        d.nonActiveStatus).saAcctStatus ∈ churn_statuses) = true := hstm
    have hc2 : decide ((mkAccountRecord eaId d im
        d.nonActiveStatus).serviceAccountId = d.serviceAccountId) = true := by
      simp [mkAccountRecord]
    simp only [List.filter_singleton, hc1, cond_true, hc2, List.map_cons,
      List.map_nil]
    rfl
  · rw [hrecs]
    exact List.mem_append_right _ (List.mem_singleton.mpr rfl)
  · intro r hr
    rw [hrecs, List.mem_append] at hr
    rcases hr with hr | hr
    · simp only [List.mem_map] at hr
      obtain ⟨m, hm, hmk⟩ := hr
      have hlt : m < im := of_decide_eq_true
        (List.mem_takeWhile_imp (p := fun m => decide (m < im)) hm)
      rw [← hmk]
      exact le_of_lt hlt
    · rw [List.mem_singleton] at hr
      rw [hr]
      exact le_refl im
  · rw [hrecs]
    exact List.getLast?_concat _
  · intro r hr hlt
    rw [hrecs, List.mem_append] at hr
    rcases hr with hr | hr
    · simp only [List.mem_map] at hr
      obtain ⟨m, hm, hmk⟩ := hr
      rw [← hmk]
      rfl
    · rw [List.mem_singleton] at hr
      rw [hr] at hlt
      exact absurd hlt (lt_irrefl im)

lemma aux_churn_r_part (a : RAccount) (opcoDraw : ℕ → ℕ) (hashF : String → ℤ)
    (c : ℤ) (hc : a.churn = some c) (ho : a.onboard ≤ c) :
    (∀ r ∈ generate_account_attributes a opcoDraw hashF,
        a.onboard ≤ r.month ∧ r.month ≤ c ∧
          (r.saAcctStatus ≠ "Active" ↔ r.month = c))
      ∧ (∃ rl, (generate_account_attributes a opcoDraw hashF).getLast? = some rl
          ∧ rl ∈ generate_account_attributes a opcoDraw hashF
          ∧ rl.month = c ∧ rl.saAcctStatus = "Churned")
      ∧ generate_churn_records_r [a] = [(a.accountId, some c, 1)] := by
  refine ⟨?_, ?_, ?_⟩
  · intro r hr
    simp only [generate_account_attributes, hc, List.mem_map, List.mem_range]
      at hr
    obtain ⟨i, hi, hmk⟩ := hr
    have hi2 : (i : ℤ) < c - a.onboard + 1 := by omega
    rw [← hmk]
    dsimp only
    refine ⟨by omega, by omega, ?_⟩
    by_cases hcle : c ≤ a.onboard + ((i : ℕ) : ℤ)
    · rw [if_pos hcle]
      exact ⟨fun _ => by omega, fun _ => by decide⟩
    · rw [if_neg hcle]
      exact ⟨fun h2 => absurd rfl h2, fun h2 => absurd h2 (by omega)⟩
  · have hlen : (generate_account_attributes a opcoDraw hashF).length =
        (c - a.onboard + 1).toNat := by
      simp [generate_account_attributes, hc]
    have h1 := List.getLast?_eq_getElem?
      (generate_account_attributes a opcoDraw hashF)
    rw [hlen] at h1
    simp only [generate_account_attributes, hc] at h1 ⊢
    rw [List.getElem?_map, List.getElem?_range (by omega), Option.map_some']
      at h1
    refine ⟨_, h1, ?_, ?_, ?_⟩
    · exact List.mem_map.mpr ⟨(c - a.onboard + 1).toNat - 1,
        List.mem_range.mpr (by omega), rfl⟩
    · dsimp only
      omega
    · dsimp only
      rw [if_pos (by omega)]
  · simp [generate_churn_records_r, hc]


lemma aux_filter_flatMap {α β : Type} (p : β → Bool) (f : α → List β)
    (l : List α) :
    (l.flatMap f).filter p = l.flatMap (fun x => (f x).filter p) := by
  induction l with
  | nil => rfl
  | cons h t ih =>
      rw [List.flatMap_cons, List.filter_append, ih, List.flatMap_cons]

lemma aux_flatMap_single {β : Type} (g : ℕ → List β) (N a : ℕ) (ha : a < N)
    (hz : ∀ b, b < N → b ≠ a → g b = []) :
    (List.range N).flatMap g = g a := by
  induction N with
  | zero => omega
  | succ n ih =>
      rw [List.range_succ, List.flatMap_append, List.flatMap_cons,
        List.flatMap_nil, List.append_nil]
      rcases Nat.lt_succ_iff_lt_or_eq.mp ha with h | h
      · rw [ih h (fun b hb hne => hz b (by omega) hne),
          hz n (by omega) (by omega), List.append_nil]
      · subst h
        have hnil : (List.range a).flatMap g = [] := by
          rw [List.flatMap_eq_nil_iff]
          intro x hx
          rw [List.mem_range] at hx
          exact hz x (by omega) (by omega)
        rw [hnil, List.nil_append]

lemma aux_genAccountRecords_sid (j : ℕ) (d : AccountDraws)
    (months : List ℤ) :
    ∀ r ∈ genAccountRecords j d months,
      r.serviceAccountId = d.serviceAccountId := by
  intro r hr
  obtain ⟨m, s, rfl⟩ := aux_genAccountRecords_shape j d months r hr
  rfl

lemma aux_table_eq (cfg : GenConfig) (mostRecent : ℤ)
    (draws : ℕ → AccountDraws) (table : List AccountRecord)
    (hok : generate_account_data cfg mostRecent draws = Except.ok table) :
    table = (List.range cfg.numAccounts.toNat).flatMap (fun k =>
      genAccountRecords (k + 1) (draws (k + 1))
        (generate_month_sequence mostRecent (draws (k + 1)).numMonths)) := by
  unfold generate_account_data at hok
  by_cases hemp : cfg.companies = [] ∨ cfg.brands = [] ∨ cfg.ubrands = [] ∨
      cfg.packages = [] ∨ cfg.tiers = [] ∨ cfg.opcos = []
  · rw [if_pos hemp] at hok
    exact absurd hok (by simp)
  · rw [if_neg hemp] at hok
    exact (Except.ok.inj hok).symm

lemma aux_month_seq_100_3 : generate_month_sequence 100 3 = [98, 99, 100] := by
  unfold generate_month_sequence
  rw [show (List.range 3).map (fun i => (100 : ℤ) - (i : ℤ)) =
    [100, 99, 98] from rfl]
  simp [List.mergeSort, List.merge]

lemma aux_month_seq_100_2 : generate_month_sequence 100 2 = [99, 100] := by
  unfold generate_month_sequence
  rw [show (List.range 2).map (fun i => (100 : ℤ) - (i : ℤ)) =
    [100, 99] from rfl]
  simp [List.mergeSort, List.merge]

/-- The configuration used by the C4 theorems: two enterprise accounts and
non-empty choice lists. -/
def cfgC4 : GenConfig :=
  ⟨2, ["Acme"], [(1, "B")], [("U", "UD")], [(1, "P", "CP", "CPN")],
    [(1, "T", "E")], ["O"]⟩

/-- Draws of an account that goes inactive at its middle month, with
`SERVICE_ACCOUNT_ID` 5555. -/
def dC4a : AccountDraws :=
  { numMonths := 3, company := "Acme", eaBrandId := 1, eaBrandName := "B",
    eaUbrandId := "U", eaUbrandDescription := "UD", serviceAccountId := 5555,
    saBrandId := 1, saBrandName := "B", saUbrandId := "U",
    saUbrandDescription := "UD", packageId := 1, packageName := "P",
    catalogPackageId := "CP", catalogPackageName := "CPN", tierId := 1,
    tierName := "T", editionName := "E", isTester := false, ban := "BAN-9",
    opco := "O", willInactive := true, inactiveIdx := 1,
    nonActiveStatus := "Closed" }

/-- Draws of a never-inactive account that collides with `dC4a` on
`SERVICE_ACCOUNT_ID` 5555 (`randint(1000, 9999)` is drawn independently per
account, so collisions are reachable). -/
def dC4b : AccountDraws :=
  { numMonths := 2, company := "Beta", eaBrandId := 2, eaBrandName := "B2",
    eaUbrandId := "U2", eaUbrandDescription := "UD2",
    serviceAccountId := 5555, saBrandId := 2, saBrandName := "B2",
    saUbrandId := "U2", saUbrandDescription := "UD2", packageId := 2,
    packageName := "P2", catalogPackageId := "CP2",
    catalogPackageName := "CPN2", tierId := 2, tierName := "T2",
    editionName := "E2", isTester := false, ban := "BAN-8", opco := "O",
    willInactive := false, inactiveIdx := 1, nonActiveStatus := "Closed" }

/-- The per-account draw assignment of the colliding pair. -/
def drawsC4 : ℕ → AccountDraws := fun eaId => if eaId = 1 then dC4a else dC4b

/-- The full table `generate_account_data` produces for the colliding pair
(most recent month 100): account 1 contributes months 98 (Active) and 99
(Closed), account 2 contributes months 99 and 100 (both Active). -/
def c4CexTable : List AccountRecord :=
  genAccountRecords 1 dC4a [98, 99, 100] ++ genAccountRecords 2 dC4b [99, 100]

lemma aux_c4cex_table :
    generate_account_data cfgC4 100 drawsC4 = Except.ok c4CexTable := by
  unfold generate_account_data
  rw [if_neg (by simp [cfgC4])]
  refine congrArg Except.ok ?_
  show (List.range ((2 : ℤ).toNat)).flatMap (fun k =>
      genAccountRecords (k + 1) (drawsC4 (k + 1))
        (generate_month_sequence 100 (drawsC4 (k + 1)).numMonths)) = c4CexTable
  rw [show ((2 : ℤ).toNat) = 2 from rfl, show List.range 2 = [0, 1] from rfl,
    List.flatMap_cons, List.flatMap_cons, List.flatMap_nil, List.append_nil]
  show genAccountRecords (0 + 1) (drawsC4 (0 + 1))
      (generate_month_sequence 100 (drawsC4 (0 + 1)).numMonths) ++
      genAccountRecords (1 + 1) (drawsC4 (1 + 1))
        (generate_month_sequence 100 (drawsC4 (1 + 1)).numMonths) = c4CexTable
  rw [show drawsC4 (0 + 1) = dC4a from rfl,
    show drawsC4 (1 + 1) = dC4b from rfl,
    show dC4a.numMonths = 3 from rfl, show dC4b.numMonths = 2 from rfl,
    aux_month_seq_100_3, aux_month_seq_100_2]
  rfl

/-- C4 counterexample: `generate_churn_records` groups the whole table by
`SERVICE_ACCOUNT_ID`, which is drawn per account by `randint(1000, 9999)`
and can collide.  In the table `generate_account_data` builds for the two
colliding accounts above, the single churn record for service id 5555 gets
date 99 (account 1's inactive month), yet the same service id still has an
Active record at the later month 100 (account 2's terminal record): the
churn date is not the terminal month of the accounts carrying that id, the
chronologically last record of that id is Active rather than non-active,
and for the colliding account the date matches no status transition at all. -/
theorem churn_collision_counterexample :
    generate_account_data cfgC4 100 drawsC4 = Except.ok c4CexTable ∧
      dC4a.serviceAccountId = 5555 ∧ dC4b.serviceAccountId = 5555 ∧
      churnDateFor c4CexTable 5555 = some 99 ∧
      mkAccountRecord 2 dC4b 100 "Active" ∈ c4CexTable ∧
      (mkAccountRecord 2 dC4b 100 "Active").serviceAccountId = 5555 ∧
      (99 : ℤ) < (mkAccountRecord 2 dC4b 100 "Active").month ∧
      (mkAccountRecord 2 dC4b 100 "Active").saAcctStatus = "Active" := by
  refine ⟨aux_c4cex_table, rfl, rfl, ?_, ?_, rfl, by decide, rfl⟩
  · rfl
  · decide

/-- C4: in `generate_account_data` (function.py), for an account that goes
inactive — provided its drawn `SERVICE_ACCOUNT_ID` (an independent
`randint(1000, 9999)` per account) is shared by no other account in the
table, the proviso `churn_collision_counterexample` shows is necessary —
the churn date `generate_churn_records` derives from the full table is the
account's inactive month: it belongs to the account's generated month
range, every earlier record of that service id is `Active`, and the record
at that month (the account's terminal record) carries the drawn non-active
`Suspended`/`Closed` status.  In `generate_realistic_data.py` (where
accounts are keyed by unique sequential ids, so no proviso is needed) a
churned account's attribute rows span onboarding to the churn month, the
status is non-`Active` exactly at the churn month, the last row carries
`Churned` at that month, and the churn record holds that month. -/
theorem churn_date_matches_transition_unique_sid
    (cfg : GenConfig) (mostRecent : ℤ) (draws : ℕ → AccountDraws)
    (table : List AccountRecord) (a : ℕ) (im : ℤ) (a2 : RAccount)
    (opcoDraw : ℕ → ℕ) (hashF : String → ℤ) (c : ℤ)
    (hok : generate_account_data cfg mostRecent draws = Except.ok table)
    (ha : a < cfg.numAccounts.toNat)
    (hwi : (draws (a + 1)).willInactive = true)
    (hst : (draws (a + 1)).nonActiveStatus = "Suspended" ∨
      (draws (a + 1)).nonActiveStatus = "Closed")
    (him : (generate_month_sequence mostRecent
      (draws (a + 1)).numMonths)[(draws (a + 1)).inactiveIdx]? = some im)
    (hdist : ∀ b, b < cfg.numAccounts.toNat → b ≠ a →
      (draws (b + 1)).serviceAccountId ≠ (draws (a + 1)).serviceAccountId)
    (hc : a2.churn = some c) (ho : a2.onboard ≤ c) :
    (churnDateFor table (draws (a + 1)).serviceAccountId = some im
        ∧ (∀ r ∈ table,
            r.serviceAccountId = (draws (a + 1)).serviceAccountId →
              r.month ≤ im ∧ (r.month < im → r.saAcctStatus = "Active"))
        ∧ (∃ r ∈ table,
            r.serviceAccountId = (draws (a + 1)).serviceAccountId
              ∧ r.month = im
              ∧ (r.saAcctStatus = "Suspended" ∨ r.saAcctStatus = "Closed")))
      ∧ ((∀ r ∈ generate_account_attributes a2 opcoDraw hashF,
            a2.onboard ≤ r.month ∧ r.month ≤ c ∧
              (r.saAcctStatus ≠ "Active" ↔ r.month = c))
          ∧ (∃ rl, (generate_account_attributes a2 opcoDraw hashF).getLast? =
                some rl
              ∧ rl ∈ generate_account_attributes a2 opcoDraw hashF
              ∧ rl.month = c ∧ rl.saAcctStatus = "Churned")
          ∧ generate_churn_records_r [a2] = [(a2.accountId, some c, 1)]) := by
  have hfn := aux_churn_fn_part mostRecent (draws (a + 1)).numMonths (a + 1)
    (draws (a + 1)) im hwi hst him
  have htab := aux_table_eq cfg mostRecent draws table hok
  refine ⟨⟨?_, ?_, ?_⟩, aux_churn_r_part a2 opcoDraw hashF c hc ho⟩
  · have hz : ∀ b, b < cfg.numAccounts.toNat → b ≠ a →
        (((genAccountRecords (b + 1) (draws (b + 1))
              (generate_month_sequence mostRecent
                (draws (b + 1)).numMonths)).filter
            (fun r => decide (r.saAcctStatus ∈ churn_statuses))).filter
          (fun r => decide (r.serviceAccountId =
            (draws (a + 1)).serviceAccountId))) = [] := by
      intro b hb hba
      rw [List.filter_eq_nil_iff]
      intro r hrmem
      have hr2 := List.mem_of_mem_filter hrmem
      have hsid := aux_genAccountRecords_sid (b + 1) (draws (b + 1)) _ r hr2
      simp [hsid, hdist b hb hba]
    unfold churnDateFor
    rw [htab, aux_filter_flatMap, aux_filter_flatMap,
      aux_flatMap_single _ _ a ha hz]
    exact hfn.1
  · intro r hr hsid
    rw [htab, List.mem_flatMap] at hr
    obtain ⟨b, hbmem, hrb⟩ := hr
    rw [List.mem_range] at hbmem
    by_cases hba : b = a
    · subst hba
      exact ⟨hfn.2.2.1 r hrb, fun hlt => hfn.2.2.2.2 r hrb hlt⟩
    · have hsid2 := aux_genAccountRecords_sid (b + 1) (draws (b + 1)) _ r hrb
      exact absurd (hsid2.symm.trans hsid) (hdist b hbmem hba)
  · refine ⟨mkAccountRecord (a + 1) (draws (a + 1)) im
      (draws (a + 1)).nonActiveStatus, ?_, rfl, rfl, hst⟩
    rw [htab, List.mem_flatMap]
    exact ⟨a, List.mem_range.mpr ha, hfn.2.1⟩

/-- Like `dC4b` but with a distinct `SERVICE_ACCOUNT_ID`. -/
def dW2 : AccountDraws := { dC4b with serviceAccountId := 6666 }

/-- A draw assignment whose two accounts carry distinct service ids. -/
def drawsW : ℕ → AccountDraws := fun eaId => if eaId = 1 then dC4a else dW2

/-- The table `generate_account_data` produces for `drawsW`. -/
def c4WitnessTable : List AccountRecord :=
  genAccountRecords 1 dC4a [98, 99, 100] ++ genAccountRecords 2 dW2 [99, 100]

lemma aux_c4w_table :
    generate_account_data cfgC4 100 drawsW = Except.ok c4WitnessTable := by
  unfold generate_account_data
  rw [if_neg (by simp [cfgC4])]
  refine congrArg Except.ok ?_
  show (List.range ((2 : ℤ).toNat)).flatMap (fun k =>
      genAccountRecords (k + 1) (drawsW (k + 1))
        (generate_month_sequence 100 (drawsW (k + 1)).numMonths)) =
      c4WitnessTable
  rw [show ((2 : ℤ).toNat) = 2 from rfl, show List.range 2 = [0, 1] from rfl,
    List.flatMap_cons, List.flatMap_cons, List.flatMap_nil, List.append_nil]
  show genAccountRecords (0 + 1) (drawsW (0 + 1))
      (generate_month_sequence 100 (drawsW (0 + 1)).numMonths) ++
      genAccountRecords (1 + 1) (drawsW (1 + 1))
        (generate_month_sequence 100 (drawsW (1 + 1)).numMonths) =
      c4WitnessTable
  rw [show drawsW (0 + 1) = dC4a from rfl,
    show drawsW (1 + 1) = dW2 from rfl,
    show dC4a.numMonths = 3 from rfl, show dW2.numMonths = 2 from rfl,
    aux_month_seq_100_3, aux_month_seq_100_2]
  rfl

theorem churn_date_matches_transition_unique_sid_witness :
    (generate_account_data cfgC4 100 drawsW = Except.ok c4WitnessTable ∧
      (0 : ℕ) < cfgC4.numAccounts.toNat ∧
      (drawsW 1).willInactive = true ∧
      ((drawsW 1).nonActiveStatus = "Suspended" ∨
        (drawsW 1).nonActiveStatus = "Closed") ∧
      (generate_month_sequence 100
        (drawsW 1).numMonths)[(drawsW 1).inactiveIdx]? = some 99 ∧
      (∀ b, b < cfgC4.numAccounts.toNat → b ≠ 0 →
        (drawsW (b + 1)).serviceAccountId ≠ (drawsW 1).serviceAccountId) ∧
      aExC8.churn = some 101 ∧ aExC8.onboard ≤ 101) ∧
    ((churnDateFor c4WitnessTable (drawsW 1).serviceAccountId = some 99
        ∧ (∀ r ∈ c4WitnessTable,
            r.serviceAccountId = (drawsW 1).serviceAccountId →
              r.month ≤ 99 ∧ (r.month < 99 → r.saAcctStatus = "Active"))
        ∧ (∃ r ∈ c4WitnessTable,
            r.serviceAccountId = (drawsW 1).serviceAccountId ∧ r.month = 99
              ∧ (r.saAcctStatus = "Suspended" ∨ r.saAcctStatus = "Closed")))
      ∧ ((∀ r ∈ generate_account_attributes aExC8 (fun i => i + 1)
            (fun _ => 0),
            aExC8.onboard ≤ r.month ∧ r.month ≤ 101 ∧
              (r.saAcctStatus ≠ "Active" ↔ r.month = 101))
          ∧ (∃ rl, (generate_account_attributes aExC8 (fun i => i + 1)
                (fun _ => 0)).getLast? = some rl
              ∧ rl ∈ generate_account_attributes aExC8 (fun i => i + 1)
                  (fun _ => 0)
              ∧ rl.month = 101 ∧ rl.saAcctStatus = "Churned")
          ∧ generate_churn_records_r [aExC8] =
              [(aExC8.accountId, some 101, 1)])) := by
  have hseq : (generate_month_sequence 100
      (drawsW 1).numMonths)[(drawsW 1).inactiveIdx]? = some 99 := by
    rw [show (drawsW 1).numMonths = 3 from rfl, aux_month_seq_100_3]
    rfl
  have hdist : ∀ b, b < cfgC4.numAccounts.toNat → b ≠ 0 →
      (drawsW (b + 1)).serviceAccountId ≠ (drawsW 1).serviceAccountId := by
    decide
  exact ⟨⟨aux_c4w_table, by decide, rfl, Or.inr rfl, hseq, hdist, rfl,
      by decide⟩,
    churn_date_matches_transition_unique_sid cfgC4 100 drawsW c4WitnessTable
      0 99 aExC8 (fun i => i + 1) (fun _ => 0) 101 aux_c4w_table (by decide)
      rfl (Or.inr rfl) hseq hdist rfl (by decide)⟩
